import Mathlib

/-
Verification of the PObox catalog reconciliation & SKU synthesis engine
(app.py).

Embedding conventions:
- Python strings are modelled as Lean `String`s; all operations work on
  their character lists.  Python `.lower()` / `.strip()` / `in` /
  `.split()` are re-implemented character by character (`pyLower`,
  `pyStrip`, `strIn`, `wordsOf`, `splitChar`).
- Python floats holding pack / volume quantities are modelled as exact
  decimals: a pair `m / 10^k` (`Dec`, for values that are re-printed with
  `str()`).  Price arithmetic is carried out in ℚ with explicit binary64
  rounding: `fl` rounds an exact rational to the nearest IEEE-754 double
  (ties to even), the decimal literals 1.265 / 1.285 and every `+` / `*`
  result pass through `fl`, and Python `round(x, 2)` is `pyRound2`, the
  correct 2-place decimal rounding (half to even) of the float's exact
  value — so 63 × 1.285 rounds to 80.95, as the program computes, and not
  to the 80.96 that exact decimal arithmetic would give.  `float()`
  parsing is modelled for plain decimal literals (`parseDec`), other
  inputs count as parse failures.
- The fuzzy similarity score (the external `thefuzz` library) and the
  Cin7 product-id HTTP lookup are external collaborators: they appear as
  oracle parameters (`sf : String → String → ℕ`, `cin7 : String → String`).
-/

-- ## Python string primitives

/-- Python's whitespace class for `str.strip` / `str.split`:
space, tab, LF, VT, FF, CR. -/
def isPyWs (c : Char) : Bool := c.toNat = 32 || (9 ≤ c.toNat && c.toNat ≤ 13)

/-- Python `str.lower()` (ASCII behaviour). -/
def pyLower (s : String) : String := String.mk (s.data.map Char.toLower)

/-- Python `str.upper()` (ASCII behaviour). -/
def pyUpper (s : String) : String := String.mk (s.data.map Char.toUpper)

/-- Drop Python whitespace from both ends of a char list. -/
def stripWs (l : List Char) : List Char :=
  ((l.dropWhile isPyWs).reverse.dropWhile isPyWs).reverse

/-- Python `str.strip()`. -/
def pyStrip (s : String) : String := String.mk (stripWs s.data)

/-- Substring test on char lists (Python `needle in hay`). -/
def isSub (n : List Char) : List Char → Bool
  | [] => n.isEmpty
  | c :: cs => n.isPrefixOf (c :: cs) || isSub n cs

/-- Python `needle in hay` on strings. -/
def strIn (needle hay : String) : Bool := isSub needle.data hay.data

/-- Accumulator pass for whitespace splitting. -/
def splitWsAux : List Char → List Char → List (List Char)
  | [], acc => if acc.isEmpty then [] else [acc.reverse]
  | c :: cs, acc =>
    if isPyWs c then
      if acc.isEmpty then splitWsAux cs [] else acc.reverse :: splitWsAux cs []
    else splitWsAux cs (c :: acc)

/-- Python `str.split()` (split on whitespace runs, dropping empties). -/
def wordsOf (s : String) : List (List Char) := splitWsAux s.data []

/-- Accumulator pass for separator splitting. -/
def splitCharAux (sep : Char) : List Char → List Char → List (List Char)
  | [], acc => [acc.reverse]
  | c :: cs, acc =>
    if c = sep then acc.reverse :: splitCharAux sep cs []
    else splitCharAux sep cs (c :: acc)

/-- Python `str.split(sep)` for a one-character separator (keeps empties). -/
def splitChar (sep : Char) (s : String) : List (List Char) :=
  splitCharAux sep s.data []

-- ## Python number printing (`str()` on ints and floats)

/-- One decimal digit as a character. -/
def digChar : Nat → Char
  | 0 => '0'
  | 1 => '1'
  | 2 => '2'
  | 3 => '3'
  | 4 => '4'
  | 5 => '5'
  | 6 => '6'
  | 7 => '7'
  | 8 => '8'
  | 9 => '9'
  | _ => '?'

/-- Little-endian digit characters of `n` (fuel-driven, `fuel ≥ n` suffices). -/
def natDigitsAux : Nat → Nat → List Char
  | 0, _ => []
  | _ + 1, 0 => []
  | fuel + 1, n + 1 => digChar ((n + 1) % 10) :: natDigitsAux fuel ((n + 1) / 10)

/-- Python `str(n)` for a natural number. -/
def natToStr (n : Nat) : String :=
  if n = 0 then "0" else String.mk (natDigitsAux n n).reverse

/-- Python `str(i)` for an integer. -/
def pyStrInt (i : Int) : String :=
  if i < 0 then "-" ++ natToStr i.natAbs else natToStr i.natAbs

/-- Python `int()` truncation of a rational toward zero. -/
def pyTrunc (q : ℚ) : ℤ := if 0 ≤ q then ⌊q⌋ else -⌊-q⌋

-- ## Exact decimals (Python floats that get re-printed)

/-- An exact decimal `m / 10 ^ k`: the value Python's `float()` produces on
the decimal literals that reach it in this program. -/
abbrev Dec := Nat × Nat

/-- Rational value of a decimal. -/
def decVal (d : Dec) : ℚ := (d.1 : ℚ) / (10 : ℚ) ^ d.2

/-- Python `float.is_integer()`. -/
def decIsInt (d : Dec) : Bool := d.1 % 10 ^ d.2 = 0

/-- Integer part (valid when `decIsInt`). -/
def decToNat (d : Dec) : Nat := d.1 / 10 ^ d.2

/-- Division by 10 (the millilitre convention). -/
def decDivTen (d : Dec) : Dec := (d.1, d.2 + 1)

/-- Exact halving of a decimal (split-case logic). -/
def decHalf (d : Dec) : Dec :=
  if d.1 % 2 = 0 then (d.1 / 2, d.2) else (d.1 * 5, d.2 + 1)

/-- Drop trailing zero fractional digits (Python float `repr` normalising). -/
def decStrip : Nat → Nat → Dec
  | m, 0 => (m, 0)
  | m, k + 1 => if m % 10 = 0 then decStrip (m / 10) k else (m, k + 1)

/-- Left-pad digit characters with zeros to width `k`. -/
def padZeros (s : List Char) (k : Nat) : List Char :=
  List.replicate (k - s.length) '0' ++ s

/-- Python `str(x)` for a non-negative float with a short decimal expansion. -/
def decStr (d : Dec) : String :=
  let s := decStrip d.1 d.2
  if s.2 = 0 then natToStr s.1 ++ ".0"
  else natToStr (s.1 / 10 ^ s.2) ++ "." ++ String.mk (padZeros (natToStr (s.1 % 10 ^ s.2)).data s.2)

/-- The token `str(int(x)) if x.is_integer() else str(x)` used throughout
the matcher and the volume normaliser. -/
def decTokenStr (d : Dec) : String :=
  if decIsInt d then natToStr (decToNat d) else decStr d

-- ## Number scanning (`re.findall(r'\d+\.?\d*', ...)` and `float()`)

/-- Split a leading run of digits off a char list. -/
def takeDigits : List Char → (List Char × List Char)
  | [] => ([], [])
  | c :: cs =>
    if c.isDigit then
      let p := takeDigits cs
      (c :: p.1, p.2)
    else ([], c :: cs)

/-- Numeric value of a digit-character list. -/
def digitsToNat (l : List Char) : Nat :=
  l.foldl (fun a c => a * 10 + (c.toNat - 48)) 0

/-- First match of `\d+\.?\d*` in a char list, as an exact decimal. -/
def findFirstNum : List Char → Option Dec
  | [] => none
  | c :: cs =>
    if c.isDigit then
      let p := takeDigits cs
      let ip := c :: p.1
      match p.2 with
      | '.' :: rest =>
        let f := takeDigits rest
        some (digitsToNat (ip ++ f.1), f.1.length)
      | _ => some (digitsToNat ip, 0)
    else findFirstNum cs

/-- Python `float()` on a plain (unsigned) decimal literal, `none` when the
text is not such a literal (the callers catch the `ValueError`). -/
def parseDec (s : String) : Option Dec :=
  match stripWs s.data with
  | [] => none
  | c :: cs =>
    if c.isDigit then
      let p := takeDigits cs
      let ip := c :: p.1
      match p.2 with
      | [] => some (digitsToNat ip, 0)
      | '.' :: rest =>
        let f := takeDigits rest
        if f.2.isEmpty then some (digitsToNat (ip ++ f.1), f.1.length) else none
      | _ => none
    else none

-- ## Pricing rule (app.py `calculate_sell_price`, lines 72–84)

/-- Fuel-driven bit length of a natural number (Python `int.bit_length`);
the explicit fuel keeps the recursion structural so the kernel can
evaluate it. -/
def bitLenAux : ℕ → ℕ → ℕ
  | 0, _ => 0
  | fuel + 1, n => if n = 0 then 0 else bitLenAux fuel (n / 2) + 1

/-- Bit length, with fuel 381: exact for every `n < 2 ^ 381`, which covers
every scaled mantissa the pricing model produces. -/
def bitLen (n : ℕ) : ℕ := bitLenAux 381 n

/-- Round a nonnegative rational to the nearest IEEE-754 binary64 value
(round to nearest, ties to even), computed at the fixed scale `2 ^ 130`:
the scaled value `q * 2 ^ 130` is cut to 53 significant bits, rounding up
on a remainder above half, down below half, and to the even quotient on an
exact tie (an inexact tie of the scaled integer, detected by the floor
being strictly below the scaled value, rounds up).  Exact for every
magnitude the pricing rule meets (values in `[2 ^ -76, 2 ^ 328)`); tiny
values pass through unchanged. -/
def flPos (q : ℚ) : ℚ :=
  let x := q * 2 ^ 130
  let n := (⌊x⌋).toNat
  let b := bitLen n
  if b ≤ 53 then q
  else
    let t := b - 53
    let qh := n / 2 ^ t
    let rem := n % 2 ^ t
    let up : Bool :=
      decide (2 ^ (t - 1) < rem) ||
        (decide (rem = 2 ^ (t - 1)) &&
          (!(decide ((n : ℚ) = x)) || decide (qh % 2 = 1)))
    ((if up = true then qh + 1 else qh : ℕ) : ℚ) * 2 ^ t / 2 ^ 130

/-- Exact value of the Python float nearest a real (rational) number:
nearest binary64, ties to even. -/
def fl (q : ℚ) : ℚ := if q < 0 then -flPos (-q) else flPos q

/-- Python `round(x, 2)` on a float: correct decimal rounding of the exact
value, half to even.  The result is stated as the exact 2-decimal value;
the float Python actually returns is the binary64 nearest that decimal,
and two such floats are equal exactly when the decimals are. -/
def pyRound2 (q : ℚ) : ℚ :=
  let n := ⌊q * 100⌋
  let up : Bool :=
    decide ((1 : ℚ) / 2 < q * 100 - n) ||
      (decide (q * 100 - (n : ℚ) = 1 / 2) && decide (n % 2 ≠ 0))
  ((if up = true then n + 1 else n : ℤ) : ℚ) / 100

/-- The draft trigger substrings of `calculate_sell_price`. -/
def draftTriggers : List String :=
  ["keykeg", "steel", "poly", "uni", "cask", "keg", "firkin", "pin"]

/-- app.py `calculate_sell_price`.  The `cost` argument is the exact value
of the already-parsed Python float (a `float()` failure returns 0.00 in
the source and is outside this model).  The decimal literals 1.265 / 1.285
and each arithmetic result are rounded to binary64 by `fl` — the product
can land within a float ulp of a decimal rounding boundary (63 × 1.285
does) — and `round(·, 2)` is `pyRound2`.  The sums `cost ± k` are also
passed through `fl`, exactly as the machine adds them. -/
def calculate_sell_price (cost : ℚ) (product_type fmt : String) : ℚ :=
  if cost = 0 then 0
  else
    let fmtLower := pyLower fmt
    let isDraft := draftTriggers.any (fun t => strIn t fmtLower)
    if isDraft = true ∧ 140 < cost then pyRound2 (fl (cost + 40))
    else if isDraft = true ∧ cost < 63 then pyRound2 (fl (cost + 20))
    else if product_type = "Core Product" then pyRound2 (fl (cost * fl (1265 / 1000)))
    else pyRound2 (fl (cost * fl (1285 / 1000)))

/-- The price function exactly as claim C2 words the branch order (four
branches in order, no zero-cost guard), over the same binary64 arithmetic
as the source; kept separately to compare with the source definition. -/
def claimPriceC2 (cost : ℚ) (product_type fmt : String) : ℚ :=
  let isDraft := draftTriggers.any (fun t => strIn t (pyLower fmt))
  if isDraft = true ∧ 140 < cost then pyRound2 (fl (cost + 40))
  else if isDraft = true ∧ cost < 63 then pyRound2 (fl (cost + 20))
  else if product_type = "Core Product" then pyRound2 (fl (cost * fl (1265 / 1000)))
  else pyRound2 (fl (cost * fl (1285 / 1000)))

-- ## Volume normaliser (app.py `normalize_vol_string`, lines 886–894)

/-- app.py `normalize_vol_string`: lower/strip, take the first numeric
token, divide by ten when a millilitre marker is present, print with
`str(int(v))` when integral and `str(v)` otherwise; `"0"` on empty or
tokenless input. -/
def normalize_vol_string (v : String) : String :=
  if v.data.isEmpty then "0"
  else
    let s := pyStrip (pyLower v)
    match findFirstNum s.data with
    | none => "0"
    | some d =>
      let d2 := if strIn ("ml") s then decDivTen d else d
      decTokenStr d2

-- ## Product code (app.py `generate_sku_parts`, lines 1206–1218)

/-- Characters kept by `re.sub(r'[^a-zA-Z0-9\s]', '', ...)`. -/
def isSkuKeep (c : Char) : Bool :=
  ('a' ≤ c && c ≤ 'z') || ('A' ≤ c && c ≤ 'Z') || ('0' ≤ c && c ≤ '9') || isPyWs c

/-- Python `.ljust(4, 'X')[:4]`. -/
def padTrunc4 (l : List Char) : List Char :=
  (l ++ List.replicate (4 - l.length) 'X').take 4

/-- The cleaned word list of `generate_sku_parts`: strip characters other
than letters/digits/whitespace, uppercase, split on whitespace. -/
def skuWords (product_name : String) : List (List Char) :=
  wordsOf (pyUpper (String.mk (product_name.data.filter isSkuKeep)))

/-- app.py `generate_sku_parts`. -/
def generate_sku_parts (product_name : String) : String :=
  let ws := skuWords product_name
  if ws.length = 0 then "XXXX"
  else if 4 ≤ ws.length then String.mk ((ws.take 4).map (fun w => w.headD '?'))
  else if 2 ≤ ws.length then
    String.mk (padTrunc4 ((ws.headD []).take 2 ++ ((ws.drop 1).headD []).take 2))
  else String.mk (padTrunc4 ((ws.headD []).take 2 ++ ['X', 'X']))

-- ## Catalog matcher (app.py `run_reconciliation_check`, lines 896–1045)

/-- One Shopify variant node. -/
structure Variant where
  title : String
  sku : String
deriving DecidableEq

/-- One Shopify product node for the line's supplier: title, `Format`
metafield value, `Keg_Type` metafield value, variant list. -/
structure Candidate where
  title : String
  fmtMeta : String
  kegMeta : String
  variants : List Variant
deriving DecidableEq

/-- One invoice line as the matcher consumes it. -/
structure InvLine where
  supplier : String
  prodName : String
  format : String
  packSize : String
  volume : String
  useSplit : Bool
deriving DecidableEq

/-- Candidate title cleanup: on a `/` the second slash-part, stripped. -/
def cleanTitle (t : String) : String :=
  if strIn ("/") t then
    match (splitChar '/' t).map (fun l => stripWs l) with
    | _ :: p :: _ => String.mk p
    | _ => t
  else t

/-- Fuzzy score of one candidate plus the literal-substring bonus;
`sf` is the external `fuzz.token_sort_ratio` oracle. -/
def scoreEntry (sf : String → String → ℕ) (invName : String) (c : Candidate) :
    ℕ × Candidate × String :=
  let clean := cleanTitle c.title
  let base := sf invName clean
  let sc := if strIn (pyLower invName) (pyLower clean) then base + 10 else base
  (sc, c, clean)

/-- Scored candidates with scores ≤ 40 discarded (source: `if score > 40`). -/
def scoredList (sf : String → String → ℕ) (invName : String)
    (cands : List Candidate) : List (ℕ × Candidate × String) :=
  (cands.map (scoreEntry sf invName)).filter (fun e => 40 < e.1)

/-- Stable descending insertion: a new entry goes after all entries with a
score at least its own. -/
def insertDesc (x : ℕ × Candidate × String) :
    List (ℕ × Candidate × String) → List (ℕ × Candidate × String)
  | [] => [x]
  | y :: ys => if x.1 ≤ y.1 then y :: insertDesc x ys else x :: y :: ys

/-- Stable sort by descending score (Python `sort(key=..., reverse=True)`). -/
def sortDesc (l : List (ℕ × Candidate × String)) : List (ℕ × Candidate × String) :=
  l.foldl (fun acc x => insertDesc x acc) []

/-- The combined format text `f"{shop_fmt_meta} {shop_title_lower}".lower()`. -/
def shopFormatStr (c : Candidate) : String :=
  pyLower (c.fmtMeta ++ " " ++ pyLower c.title)

/-- The keg cross-family disqualifier of the source (lines 981–992):
invoice families are poly/dolium/pet, keykeg, steel/stainless; candidate
families (from the keg-type metadata) are poly/dolium, keykeg,
steel/stainless. -/
def kegCross (invFmt : String) (c : Candidate) : Bool :=
  let polyInv := strIn ("poly") invFmt || strIn ("dolium") invFmt || strIn ("pet") invFmt
  let keyInv := strIn ("keykeg") invFmt
  let steelInv := strIn ("steel") invFmt || strIn ("stainless") invFmt
  let kegVal := pyLower c.kegMeta
  let polyShop := strIn ("poly") kegVal || strIn ("dolium") kegVal
  let keyShop := strIn ("keykeg") kegVal
  let steelShop := strIn ("steel") kegVal || strIn ("stainless") kegVal
  (polyInv && (keyShop || steelShop)) || (keyInv && (polyShop || steelShop)) ||
    (steelInv && (polyShop || keyShop))

/-- Format-compatibility filter (lines 980–997). -/
def formatCompatible (invFmt : String) (c : Candidate) : Bool :=
  if strIn ("keg") invFmt then !(kegCross invFmt c)
  else if strIn ("cask") invFmt || strIn ("firkin") invFmt then
    !(strIn ("keg") (shopFormatStr c) && !(strIn ("cask") (shopFormatStr c)))
  else true

/-- Pack check on a lowered variant title (lines 1003–1007). -/
def packOk (invPack vTitle : String) : Bool :=
  if invPack = "1" then !(strIn (" x ") vTitle)
  else strIn (invPack ++ " x") vTitle || strIn (invPack ++ "x") vTitle

/-- Volume check on a lowered variant title (lines 1008–1014). -/
def volOk (invVol vTitle : String) : Bool :=
  strIn invVol vTitle
  || ((invVol.data.length == 2) && strIn (invVol ++ "0") vTitle)
  || ((invVol == "9") && strIn ("firkin") vTitle)
  || (((invVol == "4") || (invVol == "4.5")) && strIn ("pin") vTitle)
  || (((invVol == "40") || (invVol == "41")) && strIn ("firkin") vTitle)
  || (((invVol == "20") || (invVol == "21")) && strIn ("pin") vTitle)

/-- Both checks on one variant. -/
def variantOkFor (invPack invVol : String) (v : Variant) : Bool :=
  let t := pyLower v.title
  packOk invPack t && volOk invVol t

/-- First variant in listed order passing both checks. -/
def findVariant (invPack invVol : String) (vs : List Variant) : Option Variant :=
  vs.find? (variantOkFor invPack invVol)

/-- Walk the scored candidates: skip scores < 75, skip incompatible
candidates, return the first (candidate, variant) whose variant passes
pack and volume checks. -/
def walkList (invFmt invPack invVol : String) :
    List (ℕ × Candidate × String) → Option (Candidate × Variant)
  | [] => none
  | e :: rest =>
    if e.1 < 75 then walkList invFmt invPack invVol rest
    else if formatCompatible invFmt e.2.1 then
      match findVariant invPack invVol e.2.1.variants with
      | some v => some (e.2.1, v)
      | none => walkList invFmt invPack invVol rest
    else walkList invFmt invPack invVol rest

/-- The invoice pack token, including the split-case halving (lines 935–947). -/
def packTokenOf (line : InvLine) : String :=
  let raw := pyStrip line.packSize
  let packVal := (parseDec raw).getD (1, 0)
  if line.useSplit = true ∧ 1 < decVal packVal then decTokenStr (decHalf packVal)
  else decTokenStr packVal

/-- The matcher core: which (candidate, variant) pair one line matches. -/
def matchCandidate (sf : String → String → ℕ) (line : InvLine)
    (cands : List Candidate) : Option (Candidate × Variant) :=
  walkList (pyLower line.format) (packTokenOf line) (normalize_vol_string line.volume)
    (sortDesc (scoredList sf line.prodName cands))

/-- The per-line result row written back by the matcher. -/
structure MatchRow where
  status : String
  matchedProduct : String
  matchedVariant : String
  image : String
  londonSku : String
  cin7LondonId : String
  gloucesterSku : String
  cin7GlouId : String
deriving DecidableEq

/-- Strip a 2-character location marker off a matched product title. -/
def stripLocMark (t : String) : String :=
  if ("L-").data.isPrefixOf t.data || ("G-").data.isPrefixOf t.data then
    String.mk (t.data.drop 2)
  else t

/-- Assemble the MatchRow for one line (lines 926–1043): VendorNotFound on
an empty candidate set, else Matched with derived SKUs (only when the
matched variant SKU is longer than 2 characters) or Unmatched; `cin7` is
the external product-id lookup, consulted only for nonempty SKUs. -/
def buildResult (sf : String → String → ℕ) (cin7 : String → String)
    (line : InvLine) (cands : List Candidate) : MatchRow :=
  if cands.isEmpty then
    ⟨"❓ Vendor Not Found", "", "", "", "", "", "", ""⟩
  else
    match matchCandidate sf line cands with
    | none => ⟨"🟥 Check and Upload", "", "", "", "", "", "", ""⟩
    | some (c, v) =>
      let vSku := pyStrip v.sku
      let base := String.mk (vSku.data.drop 2)
      let lSku := if 2 < vSku.data.length then "L-" ++ base else ""
      let gSku := if 2 < vSku.data.length then "G-" ++ base else ""
      ⟨"✅ Match", stripLocMark c.title, v.title, "",
        lSku, (if lSku ≠ "" then cin7 lSku else ""),
        gSku, (if gSku ≠ "" then cin7 gSku else "")⟩

/-- The invariant exactly as claim C4 words it: either Matched with both
location SKUs populated, or not-Matched with every SKU and catalog-id
field empty. -/
def c4ClaimProp (r : MatchRow) : Prop :=
  (r.status = "✅ Match" ∧ r.londonSku ≠ "" ∧ r.gloucesterSku ≠ "")
  ∨ (r.status ≠ "✅ Match" ∧ r.londonSku = "" ∧ r.cin7LondonId = ""
      ∧ r.gloucesterSku = "" ∧ r.cin7GlouId = "")

instance (r : MatchRow) : Decidable (c4ClaimProp r) := by
  unfold c4ClaimProp; infer_instance

/-- The three keg families. -/
inductive KegFam
  | poly
  | key
  | steel
deriving DecidableEq

/-- Modelled from the spec: partition invoice and candidate keg text into
the three mutually exclusive families poly/dolium/PET, keyKeg,
steel/stainless (claim C1's wording; the keyKeg marker is tested first
since it is the most specific). -/
def specKegFamily (s : String) : Option KegFam :=
  if strIn ("keykeg") s then some KegFam.key
  else if strIn ("poly") s || strIn ("dolium") s || strIn ("pet") s then some KegFam.poly
  else if strIn ("steel") s || strIn ("stainless") s then some KegFam.steel
  else none

-- ## Identity synthesizer (app.py Tab 4 generate-upload loop, lines 1679–1798)

/-- One staged row entering the Generate Upload Data loop. -/
structure StagedRow where
  brewery : String
  product : String
  format : String
  volume : String
  abv : String
  attr5 : String
  packSize : String
  itemPrice : String
  isSplit : Bool
deriving DecidableEq

/-- One synthesized identity row. -/
structure SynthRow where
  familySku : String
  familyName : String
  variantSku : String
  variantName : String
  connector : String
  weight : ℚ
  salesPrice : ℚ
  itemPrice : ℚ
  packSize : ℚ
deriving DecidableEq

/-- The synthesizer's variant-name rule (lines 1766–1770). -/
def variantNameRule (pack : ℚ) (vol conn : String) : String :=
  let base := if 1 < pack then pyStrInt (pyTrunc pack) ++ " x " ++ vol else vol
  if conn ≠ "" then base ++ " - " ++ conn else base

/-- Dispense connectors from the lowered format text (lines 1710–1715). -/
def connectorsOf (fmtLower : String) : List String :=
  if strIn ("dolium") fmtLower && strIn ("us") fmtLower then ["US Sankey D-Type Coupler"]
  else if strIn ("poly") fmtLower then ["Sankey Coupler", "KeyKeg Coupler"]
  else if strIn ("key") fmtLower then ["KeyKeg Coupler"]
  else if strIn ("steel") fmtLower then ["Sankey Coupler"]
  else [""]

/-- Family SKU: supplier code + product code + date + row index + format
code (line 1706). -/
def familySkuOf (suppMap fmtMap : String → Option String) (dateStr : String)
    (idx : ℕ) (row : StagedRow) : String :=
  (suppMap row.brewery).getD ("XXXX") ++ generate_sku_parts row.product ++ "-"
    ++ dateStr ++ "-" ++ natToStr idx ++ "-"
    ++ (fmtMap (pyLower (pyStrip row.format))).getD ("UN")

/-- Family name (line 1707). -/
def familyNameOf (row : StagedRow) : String :=
  row.brewery ++ " / " ++ row.product ++ " / " ++ pyStrip row.abv ++ "% / "
    ++ pyStrip row.format

/-- Original pack count: 1 on blank/`nan`/unparseable input (lines 1721–1725). -/
def origPackOf (row : StagedRow) : ℚ :=
  if row.packSize.data.isEmpty ∨ pyLower row.packSize = "nan" then 1
  else ((parseDec row.packSize).map decVal).getD 1

/-- Original unit cost: 0 on unparseable input (lines 1727–1729). -/
def origPriceOf (row : StagedRow) : ℚ :=
  ((parseDec row.itemPrice).map decVal).getD 0

/-- The (pack, cost) expansion set: the original pair always, plus the
halved pair when the split flag is set and pack > 1 (lines 1731–1737). -/
def synthConfigs (row : StagedRow) : List (ℚ × ℚ) :=
  let p := origPackOf row
  let pr := origPriceOf row
  (p, pr) :: (if row.isSplit = true ∧ 1 < p then [(p / 2, pr / 2)] else [])

/-- One emitted row for a (pack, cost) pair and a connector (lines 1740–1782). -/
def synthRowFor (sizeCode : String) (kegMap : String → Option String)
    (familySku familyName fmtName vol attr5 : String) (unitWeight : ℚ)
    (pc : ℚ × ℚ) (conn : String) : SynthRow :=
  let pack := pc.1
  let price := pc.2
  let packInt := pyTrunc pack
  let multi := 1 < pack
  let suffix0 := if multi then "-" ++ pyStrInt packInt ++ "X" ++ sizeCode else "-" ++ sizeCode
  let suffix := if conn ≠ "" then suffix0 ++ "-" ++ (kegMap (pyLower conn)).getD ("XX") else suffix0
  ⟨familySku, familyName, familySku ++ suffix, variantNameRule pack vol conn, conn,
    unitWeight * pack, calculate_sell_price price attr5 fmtName, price, pack⟩

/-- The full synthesizer for one staged row: lookup weight/size/supplier/
format codes (with their documented defaults), build the family identity,
and emit one row per (pack, cost) pair per connector. -/
def synthesize (suppMap fmtMap : String → Option String)
    (weightMap : String → String → Option ℚ)
    (sizeMap : String → String → Option String)
    (kegMap : String → Option String) (dateStr : String) (idx : ℕ)
    (row : StagedRow) : List SynthRow :=
  let fmtName := pyStrip row.format
  let volName := pyStrip row.volume
  let unitWeight := (weightMap (pyLower fmtName) (pyLower volName)).getD 0
  let sizeCode := (sizeMap (pyLower fmtName) (pyLower volName)).getD ("00")
  let familySku := familySkuOf suppMap fmtMap dateStr idx row
  let familyName := familyNameOf row
  let conns := connectorsOf (pyLower fmtName)
  (synthConfigs row).flatMap (fun pc =>
    conns.map (synthRowFor sizeCode kegMap familySku familyName fmtName volName
      row.attr5 unitWeight pc))

-- ## Final PO lines (app.py `prepare_final_po_lines`, lines 315–364)

/-- One reconciled invoice line as the PO builder consumes it. -/
structure LineRow where
  status : String
  prodName : String
  matchedVariant : String
  qty : ℚ
  price : ℚ
  useSplit : Bool
  cin7LondonId : String
  cin7GlouId : String
deriving DecidableEq

/-- One prepared purchase-order line. -/
structure PORow where
  product : String
  variantMatch : String
  poQty : ℚ
  poCost : ℚ
  total : ℚ
  notes : String
  cin7LondonId : String
  cin7GlouId : String
deriving DecidableEq

/-- The loop body of `prepare_final_po_lines` for one matched row. -/
def poLineOf (r : LineRow) : PORow :=
  let q := if r.useSplit then r.qty * 2 else r.qty
  let c := if r.useSplit then r.price / 2 else r.price
  ⟨r.prodName, r.matchedVariant, q, c, q * c,
    (if r.useSplit then "⚠️ Split Case (Half Size)" else ""),
    r.cin7LondonId, r.cin7GlouId⟩

/-- app.py `prepare_final_po_lines`: keep Matched rows only, apply the
split-case transform. -/
def prepare_final_po_lines (rows : List LineRow) : List PORow :=
  rows.filterMap (fun r => if r.status = "✅ Match" then some (poLineOf r) else none)

/-- The optional " - <connector>" suffix of a variant name. -/
def connSuffix (conn : String) : String := if conn ≠ "" then " - " ++ conn else ""

-- ## Concrete fixtures for counterexamples and witnesses

/-- A constant fuzzy-score oracle. -/
def sfConst (n : ℕ) : String → String → ℕ := fun _ _ => n

/-- A Cin7 lookup oracle that finds nothing. -/
def cinBlank : String → String := fun _ => ""

/-- Empty lookup tables (every key misses). -/
def mapNone : String → Option String := fun _ => none

/-- Empty two-key lookup table. -/
def mapNone2 : String → String → Option String := fun _ _ => none

/-- Empty weight table. -/
def mapNoneW : String → String → Option ℚ := fun _ _ => none

/-- Invoice line: a steel keg (C1 counterexample). -/
def lineC1 : InvLine := ⟨"S", "Test Pale", "Steel Keg", "1", "30L", false⟩

/-- Candidate whose keg metadata says "pet" (C1 counterexample). -/
def candC1 : Candidate := ⟨"Test Pale", "", "pet", [⟨"30L", "AB12345"⟩]⟩

/-- The matched variant of `candC1`. -/
def varC1 : Variant := ⟨"30L", "AB12345"⟩

/-- Invoice line: a KeyKeg (C1 witness). -/
def lineC1w : InvLine := ⟨"S", "Test Pale", "KeyKeg 30L", "1", "30L", false⟩

/-- Candidate whose keg metadata says "keykeg" (C1 witness). -/
def candC1w : Candidate := ⟨"Test Pale", "", "keykeg", [⟨"30L", "AB123"⟩]⟩

/-- The matched variant of `candC1w`. -/
def varC1w : Variant := ⟨"30L", "AB123"⟩

/-- Invoice line for the score-floor examples (C3). -/
def lineC3 : InvLine := ⟨"S", "Alpha", "", "1", "30L", false⟩

/-- Candidate for the score-floor examples (C3); its title shares no text
with the line so no substring bonus applies. -/
def candC3 : Candidate := ⟨"Beta", "", "", [⟨"30L", "XX123"⟩]⟩

/-- The variant of `candC3`. -/
def varC3 : Variant := ⟨"30L", "XX123"⟩

/-- Invoice line for the short-SKU counterexample (C4). -/
def lineC4 : InvLine := ⟨"S", "Pale", "", "1", "30L", false⟩

/-- Candidate whose only variant has the 1-character SKU "X" (C4). -/
def candC4 : Candidate := ⟨"Pale", "", "", [⟨"30L", "X"⟩]⟩

/-- Staged row of the split-case example (C6): pack 24, cost 48, split. -/
def rowC6 : StagedRow :=
  ⟨"Brew Co", "Test Pale", "Can", "33cl", "5", "Rotational Product", "24", "48", true⟩

/-- First synthesized row of the C6 example (pack 24, cost 48). -/
def synthA : SynthRow :=
  synthRowFor ("00") mapNone ("XXXXTEPA-11102025-0-UN")
    ("Brew Co / Test Pale / 5% / Can") ("Can") ("33cl") ("Rotational Product") 0 (24, 48) ""

/-- Second synthesized row of the C6 example (pack 12, cost 24). -/
def synthB : SynthRow :=
  synthRowFor ("00") mapNone ("XXXXTEPA-11102025-0-UN")
    ("Brew Co / Test Pale / 5% / Can") ("Can") ("33cl") ("Rotational Product") 0 (12, 24) ""

-- ## Helper lemmas: substring machinery

theorem data_app (a b : String) : (a ++ b).data = a.data ++ b.data := rfl

theorem pyLower_data (s : String) : (pyLower s).data = s.data.map Char.toLower := rfl

theorem isPrefixOf_self_app (n t : List Char) : n.isPrefixOf (n ++ t) = true := by
  induction n with
  | nil => cases t <;> rfl
  | cons c cs ih => simp [List.isPrefixOf, ih]

theorem isPrefixOf_app_extend {n l : List Char} (r : List Char)
    (h : n.isPrefixOf l = true) : n.isPrefixOf (l ++ r) = true := by
  induction n generalizing l with
  | nil => cases l <;> cases r <;> simp [List.isPrefixOf]
  | cons c cs ih =>
    cases l with
    | nil => simp [List.isPrefixOf] at h
    | cons d ds =>
      simp only [List.isPrefixOf, Bool.and_eq_true, beq_iff_eq] at h
      simp only [List.cons_append, List.isPrefixOf, Bool.and_eq_true, beq_iff_eq]
      exact ⟨h.1, ih h.2⟩

theorem isSub_nil_needle (l : List Char) : isSub [] l = true := by
  cases l <;> simp [isSub, List.isPrefixOf]

theorem isSub_of_pre {n l : List Char} (h : n.isPrefixOf l = true) : isSub n l = true := by
  cases l with
  | nil =>
    cases n with
    | nil => rfl
    | cons c cs => simp [List.isPrefixOf] at h
  | cons c cs => simp [isSub, h]

theorem isSub_cons_extend {n l : List Char} (c : Char) (h : isSub n l = true) :
    isSub n (c :: l) = true := by
  simp [isSub, h]

theorem isSub_app_left (p : List Char) {n l : List Char} (h : isSub n l = true) :
    isSub n (p ++ l) = true := by
  induction p with
  | nil => exact h
  | cons c cs ih => exact isSub_cons_extend c ih

theorem isSub_app_right {n l : List Char} (h : isSub n l = true) (r : List Char) :
    isSub n (l ++ r) = true := by
  induction l with
  | nil =>
    have hn : n = [] := by
      cases n with
      | nil => rfl
      | cons c cs => simp [isSub, List.isEmpty] at h
    subst hn; exact isSub_nil_needle r
  | cons c cs ih =>
    rcases Bool.or_eq_true_iff.1 h with h1 | h2
    · exact isSub_of_pre (isPrefixOf_app_extend r h1)
    · exact isSub_cons_extend c (ih h2)

theorem isSub_self_app (n t : List Char) : isSub n (n ++ t) = true :=
  isSub_of_pre (isPrefixOf_self_app n t)

theorem isSub_mid (p n t : List Char) : isSub n (p ++ (n ++ t)) = true :=
  isSub_app_left p (isSub_self_app n t)

theorem isSub_app_split {n a b : List Char} (h : isSub n (a ++ b) = true) :
    isSub n b = true ∨ ∃ s t, a = s ++ t ∧ t ≠ [] ∧ n.isPrefixOf (t ++ b) = true := by
  induction a with
  | nil => exact Or.inl h
  | cons c cs ih =>
    rcases Bool.or_eq_true_iff.1 h with h1 | h2
    · exact Or.inr ⟨[], c :: cs, rfl, by simp, h1⟩
    · rcases ih h2 with h3 | ⟨s, t, hst, ht, hp⟩
      · exact Or.inl h3
      · exact Or.inr ⟨c :: s, t, by rw [hst]; rfl, ht, hp⟩

-- ## Helper lemmas: digit strings

theorem digChar_lower (d : ℕ) : Char.toLower (digChar d) = digChar d := by
  unfold digChar; split <;> decide

theorem digChar_isDigit {d : ℕ} (h : d < 10) : (digChar d).isDigit = true := by
  interval_cases d <;> decide

theorem digChar_not_ws {d : ℕ} (h : d < 10) : isPyWs (digChar d) = false := by
  interval_cases d <;> decide

theorem digChar_val {d : ℕ} (h : d < 10) : (digChar d).toNat - 48 = d := by
  interval_cases d <;> decide

theorem natDigitsAux_lower (fuel n : ℕ) :
    (natDigitsAux fuel n).map Char.toLower = natDigitsAux fuel n := by
  induction fuel generalizing n with
  | zero => rfl
  | succ f ih =>
    cases n with
    | zero => rfl
    | succ m => simp [natDigitsAux, digChar_lower, ih]

theorem natDigitsAux_digits (fuel n : ℕ) :
    ∀ c ∈ natDigitsAux fuel n, c.isDigit = true := by
  induction fuel generalizing n with
  | zero => intro c hc; simp [natDigitsAux] at hc
  | succ f ih =>
    cases n with
    | zero => intro c hc; simp [natDigitsAux] at hc
    | succ m =>
      intro c hc
      simp only [natDigitsAux, List.mem_cons] at hc
      rcases hc with rfl | hc
      · exact digChar_isDigit (Nat.mod_lt _ (by omega))
      · exact ih _ c hc

theorem natDigitsAux_ne_nil {fuel n : ℕ} (h1 : fuel ≠ 0) (h2 : n ≠ 0) :
    natDigitsAux fuel n ≠ [] := by
  cases fuel with
  | zero => omega
  | succ f =>
    cases n with
    | zero => omega
    | succ m => simp [natDigitsAux]

theorem digitsToNat_app_one (l : List Char) (c : Char) :
    digitsToNat (l ++ [c]) = digitsToNat l * 10 + (c.toNat - 48) := by
  simp [digitsToNat, List.foldl_append]

theorem natDigitsAux_val (fuel : ℕ) : ∀ n : ℕ, n ≤ fuel →
    digitsToNat (natDigitsAux fuel n).reverse = n := by
  induction fuel with
  | zero => intro n h; interval_cases n; rfl
  | succ f ih =>
    intro n h
    cases n with
    | zero => rfl
    | succ m =>
      have hlt : (m + 1) / 10 ≤ f := by
        have := Nat.div_lt_self (show 0 < m + 1 by omega) (show 1 < 10 by omega)
        omega
      simp only [natDigitsAux, List.reverse_cons, digitsToNat_app_one, ih _ hlt,
        digChar_val (Nat.mod_lt _ (show 0 < 10 by omega))]
      omega

theorem pyLower_natToStr (n : ℕ) : pyLower (natToStr n) = natToStr n := by
  unfold natToStr
  by_cases h : n = 0
  · subst h; decide
  · rw [if_neg h]
    unfold pyLower
    simp [List.map_reverse, natDigitsAux_lower]

theorem natToStr_digits (n : ℕ) : ∀ c ∈ (natToStr n).data, c.isDigit = true := by
  unfold natToStr
  by_cases h : n = 0
  · subst h; decide
  · rw [if_neg h]
    intro c hc
    simp only [List.mem_reverse] at hc
    exact natDigitsAux_digits n n c hc

theorem natToStr_ne_one {n : ℕ} (h : 2 ≤ n) : natToStr n ≠ "1" := by
  intro he
  unfold natToStr at he
  rw [if_neg (by omega)] at he
  have hd : (natDigitsAux n n).reverse = ['1'] := by
    have := congrArg String.data he
    simpa using this
  have hd2 : natDigitsAux n n = ['1'] := by
    have := congrArg List.reverse hd
    simpa using this
  obtain ⟨m, rfl⟩ : ∃ m, n = m + 1 := ⟨n - 1, by omega⟩
  simp only [natDigitsAux, List.cons.injEq] at hd2
  obtain ⟨hc, htl⟩ := hd2
  by_cases hsmall : m + 1 < 10
  · have h10 : (m + 1) % 10 = m + 1 := Nat.mod_eq_of_lt hsmall
    rw [h10] at hc
    have hm1 : 1 ≤ m := by omega
    have hm8 : m ≤ 8 := by omega
    interval_cases m <;> simp_all [digChar]
  · have hq : (m + 1) / 10 ≠ 0 := by omega
    exact natDigitsAux_ne_nil (show m ≠ 0 by omega) hq htl

-- ## Helper lemmas: parsing round-trips

theorem mk_data (s : String) : String.mk s.data = s := rfl

theorem natDigitsAux_not_ws (fuel n : ℕ) :
    ∀ c ∈ natDigitsAux fuel n, isPyWs c = false := by
  induction fuel generalizing n with
  | zero => intro c hc; simp [natDigitsAux] at hc
  | succ f ih =>
    cases n with
    | zero => intro c hc; simp [natDigitsAux] at hc
    | succ m =>
      intro c hc
      simp only [natDigitsAux, List.mem_cons] at hc
      rcases hc with rfl | hc
      · exact digChar_not_ws (Nat.mod_lt _ (by omega))
      · exact ih _ c hc

theorem natToStr_not_ws (n : ℕ) : ∀ c ∈ (natToStr n).data, isPyWs c = false := by
  unfold natToStr
  by_cases h : n = 0
  · subst h; decide
  · rw [if_neg h]
    intro c hc
    simp only [List.mem_reverse] at hc
    exact natDigitsAux_not_ws n n c hc

theorem dropWhile_no {p : Char → Bool} {l : List Char}
    (h : ∀ c ∈ l, p c = false) : l.dropWhile p = l := by
  cases l with
  | nil => rfl
  | cons c cs => simp [List.dropWhile_cons, h c (List.mem_cons_self c cs)]

theorem stripWs_no {l : List Char} (h : ∀ c ∈ l, isPyWs c = false) :
    stripWs l = l := by
  unfold stripWs
  rw [dropWhile_no h, dropWhile_no (fun c hc => h c (List.mem_reverse.1 hc)),
    List.reverse_reverse]

theorem takeDigits_all {l : List Char} (h : ∀ c ∈ l, c.isDigit = true) :
    takeDigits l = (l, []) := by
  induction l with
  | nil => rfl
  | cons c cs ih =>
    simp only [takeDigits, h c (List.mem_cons_self c cs), if_true]
    rw [ih (fun x hx => h x (List.mem_cons_of_mem c hx))]

theorem natToStr_val (n : ℕ) : digitsToNat (natToStr n).data = n := by
  unfold natToStr
  by_cases h : n = 0
  · subst h; decide
  · rw [if_neg h]
    exact natDigitsAux_val n n le_rfl

theorem natToStr_ne_nil (n : ℕ) : (natToStr n).data ≠ [] := by
  unfold natToStr
  by_cases h : n = 0
  · subst h; decide
  · rw [if_neg h]
    intro hrev
    exact natDigitsAux_ne_nil h h (by simpa using hrev)

theorem parseDec_natToStr (n : ℕ) : parseDec (natToStr n) = some (n, 0) := by
  obtain ⟨c, cs, hcons⟩ := List.exists_cons_of_ne_nil (natToStr_ne_nil n)
  have hdig := natToStr_digits n
  have hc := hdig c (hcons ▸ List.mem_cons_self c cs)
  have hcs := takeDigits_all (fun x hx => hdig x (hcons ▸ List.mem_cons_of_mem c hx))
  have hval : digitsToNat (c :: cs) = n := by rw [← hcons, natToStr_val n]
  unfold parseDec
  rw [stripWs_no (natToStr_not_ws n), hcons]
  simp [hc, hcs, hval]

theorem pyStrip_natToStr (n : ℕ) : pyStrip (natToStr n) = natToStr n := by
  unfold pyStrip
  rw [stripWs_no (natToStr_not_ws n), mk_data]

theorem decTokenStr_nat (n : ℕ) : decTokenStr (n, 0) = natToStr n := by
  unfold decTokenStr decIsInt decToNat
  simp [Nat.mod_one]

theorem pyTrunc_natCast (n : ℕ) : pyTrunc (n : ℚ) = n := by
  unfold pyTrunc
  rw [if_pos (by positivity)]
  exact_mod_cast Int.floor_natCast n

theorem pyStrInt_natCast (n : ℕ) : pyStrInt ((n : ℤ)) = natToStr n := by
  unfold pyStrInt
  rw [if_neg (by omega)]
  simp

theorem packTokenOf_nat (P : ℕ) (s1 s2 s3 vol : String) :
    packTokenOf ⟨s1, s2, s3, natToStr P, vol, false⟩ = natToStr P := by
  unfold packTokenOf
  simp only [pyStrip_natToStr, parseDec_natToStr, Option.getD_some]
  rw [if_neg (by simp)]
  exact decTokenStr_nat P


-- ## Helper lemmas: pricing evaluation

theorem flPos_eval_down (q : ℚ) (n t qh : ℕ)
    (hn : ⌊q * 2 ^ 130⌋ = (n : ℤ))
    (hb : bitLen n = 53 + t) (ht : 1 ≤ t)
    (hq : n / 2 ^ t = qh)
    (hrem : n % 2 ^ t < 2 ^ (t - 1)) :
    flPos q = (qh : ℚ) * 2 ^ t / 2 ^ 130 := by
  have h1 : ¬ (2 ^ (t - 1) < n % 2 ^ t) := not_lt.mpr (le_of_lt hrem)
  have h2 : ¬ (n % 2 ^ t = 2 ^ (t - 1)) := ne_of_lt hrem
  unfold flPos
  dsimp only
  rw [hn]
  simp only [Int.toNat_natCast, hb, Nat.add_sub_cancel_left]
  rw [if_neg (by omega), decide_eq_false h1, decide_eq_false h2, hq]
  simp

theorem flPos_eval_up (q : ℚ) (n t qh : ℕ)
    (hn : ⌊q * 2 ^ 130⌋ = (n : ℤ))
    (hb : bitLen n = 53 + t) (ht : 1 ≤ t)
    (hq : n / 2 ^ t + 1 = qh)
    (hrem : 2 ^ (t - 1) < n % 2 ^ t) :
    flPos q = (qh : ℚ) * 2 ^ t / 2 ^ 130 := by
  unfold flPos
  dsimp only
  rw [hn]
  simp only [Int.toNat_natCast, hb, Nat.add_sub_cancel_left]
  rw [if_neg (by omega), decide_eq_true hrem]
  simp [hq]

theorem flPos_eval_tie_up (q : ℚ) (n t qh : ℕ)
    (hn : ⌊q * 2 ^ 130⌋ = (n : ℤ))
    (hb : bitLen n = 53 + t) (ht : 1 ≤ t)
    (hq : n / 2 ^ t + 1 = qh)
    (hrem : n % 2 ^ t = 2 ^ (t - 1))
    (hodd : n / 2 ^ t % 2 = 1) :
    flPos q = (qh : ℚ) * 2 ^ t / 2 ^ 130 := by
  have h1 : ¬ (2 ^ (t - 1) < n % 2 ^ t) := by omega
  unfold flPos
  dsimp only
  rw [hn]
  simp only [Int.toNat_natCast, hb, Nat.add_sub_cancel_left]
  rw [if_neg (by omega), decide_eq_false h1, decide_eq_true hrem,
    decide_eq_true hodd]
  simp [hq]

theorem pyRound2_eval_down (q : ℚ) (n : ℤ)
    (h1 : (n : ℚ) ≤ q * 100) (h2 : q * 100 < (n : ℚ) + 1 / 2) :
    pyRound2 q = (n : ℚ) / 100 := by
  have hf : ⌊q * 100⌋ = n := Int.floor_eq_iff.mpr ⟨h1, by linarith⟩
  have g1 : ¬ ((1 : ℚ) / 2 < q * 100 - (n : ℚ)) := by intro h; linarith
  have g2 : ¬ (q * 100 - (n : ℚ) = 1 / 2) := by intro h; linarith
  unfold pyRound2
  dsimp only
  rw [hf, decide_eq_false g1, decide_eq_false g2]
  simp

theorem pyRound2_eval_up (q : ℚ) (n : ℤ)
    (h1 : (n : ℚ) + 1 / 2 < q * 100) (h2 : q * 100 < (n : ℚ) + 1) :
    pyRound2 q = ((n + 1 : ℤ) : ℚ) / 100 := by
  have hf : ⌊q * 100⌋ = n := Int.floor_eq_iff.mpr ⟨by linarith, h2⟩
  have g1 : (1 : ℚ) / 2 < q * 100 - (n : ℚ) := by linarith
  unfold pyRound2
  dsimp only
  rw [hf, decide_eq_true g1]
  simp

-- Concrete binary64 roundings met by the boundary examples; each quotient
-- and remainder fact is a kernel computation on the scaled mantissa, and
-- each result agrees with the bit pattern of the corresponding Python
-- float.  (`bitLen` unwinds about 140 nested recursion steps on these
-- mantissas, hence the raised recursion depth.)

set_option maxRecDepth 16384

theorem fl_c1285 : fl (1285 / 1000) = 5787125521171087 / 2 ^ 52 := by
  unfold fl
  rw [if_neg (by norm_num),
    flPos_eval_down (1285 / 1000) 1749051365973623702201745482199288606883
      78 5787125521171087
      (Int.floor_eq_iff.mpr ⟨by norm_num, by norm_num⟩)
      (by decide) (by decide) (by decide) (by decide)]
  norm_num

theorem fl_14001 : fl (14001 / 100) = 615770492019671 / 2 ^ 42 := by
  unfold fl
  rw [if_neg (by norm_num),
    flPos_eval_down (14001 / 100) 190571736770402377078028315146087469143818
      85 4926163936157368
      (Int.floor_eq_iff.mpr ⟨by norm_num, by norm_num⟩)
      (by decide) (by decide) (by decide) (by decide)]
  norm_num

theorem fl_6299 : fl (6299 / 100) = 8865054391502111 / 2 ^ 47 := by
  unfold fl
  rw [if_neg (by norm_num),
    flPos_eval_up (6299 / 100) 85737545169399655254231866088508318558453
      83 8865054391502111
      (Int.floor_eq_iff.mpr ⟨by norm_num, by norm_num⟩)
      (by decide) (by decide) (by decide) (by decide)]
  norm_num

theorem fl_sumA :
    fl (615770492019671 / 2 ^ 42 + 40) = 791692352463831 / 2 ^ 42 := by
  unfold fl
  rw [if_neg (by norm_num),
    flPos_eval_down (615770492019671 / 2 ^ 42 + 40)
      245016915477752518852767859481367633985536 85 6333538819710648
      (Int.floor_eq_iff.mpr ⟨by norm_num, by norm_num⟩)
      (by decide) (by decide) (by decide) (by decide)]
  norm_num

theorem fl_sumB :
    fl (8865054391502111 / 2 ^ 47 + 20) = 364993879956521 / 2 ^ 42 := by
  unfold fl
  rw [if_neg (by norm_num),
    flPos_eval_tie_up (8865054391502111 / 2 ^ 47 + 20)
      112960134523074735039295670619819126816768 84 5839902079304336
      (Int.floor_eq_iff.mpr ⟨by norm_num, by norm_num⟩)
      (by decide) (by decide) (by decide) (by decide) (by decide)]
  norm_num

theorem fl_mul63 :
    fl (63 * (5787125521171087 / 2 ^ 52)) = 5696701684902789 / 2 ^ 46 := by
  unfold fl
  rw [if_neg (by norm_num),
    flPos_eval_up (63 * (5787125521171087 / 2 ^ 52))
      110190236056338286384100568163607761649664 84 5696701684902789
      (Int.floor_eq_iff.mpr ⟨by norm_num, by norm_num⟩)
      (by decide) (by decide) (by decide) (by decide)]
  norm_num

theorem fl_mul140 :
    fl (140 * (5787125521171087 / 2 ^ 52)) = 1582417134695219 / 2 ^ 43 := by
  unfold fl
  rw [if_neg (by norm_num),
    flPos_eval_down (140 * (5787125521171087 / 2 ^ 52))
      244867191236307303075779040363572803665920 85 6329668538780876
      (Int.floor_eq_iff.mpr ⟨by norm_num, by norm_num⟩)
      (by decide) (by decide) (by decide) (by decide)]
  norm_num

theorem fl_ten : fl 10 = 10 := by
  unfold fl
  rw [if_neg (by norm_num),
    flPos_eval_down 10 13611294676837538538534984297270728458240
      81 5629499534213120
      (Int.floor_eq_iff.mpr ⟨by norm_num, by norm_num⟩)
      (by decide) (by decide) (by decide) (by decide)]
  norm_num

theorem fl_twenty : fl 20 = 20 := by
  unfold fl
  rw [if_neg (by norm_num),
    flPos_eval_down 20 27222589353675077077069968594541456916480
      82 5629499534213120
      (Int.floor_eq_iff.mpr ⟨by norm_num, by norm_num⟩)
      (by decide) (by decide) (by decide) (by decide)]
  norm_num

theorem sell_price_ne_zero {cost : ℚ} (pt fmt : String) (h : cost ≠ 0) :
    calculate_sell_price cost pt fmt = claimPriceC2 cost pt fmt := by
  unfold calculate_sell_price claimPriceC2
  rw [if_neg h]

theorem claimPrice_high {cost : ℚ} {pt fmt : String}
    (hd : draftTriggers.any (fun t => strIn t (pyLower fmt)) = true)
    (h1 : 140 < cost) :
    claimPriceC2 cost pt fmt = pyRound2 (fl (cost + 40)) := by
  unfold claimPriceC2
  simp only [hd]
  rw [if_pos ⟨trivial, h1⟩]

theorem claimPrice_low {cost : ℚ} {pt fmt : String}
    (hd : draftTriggers.any (fun t => strIn t (pyLower fmt)) = true)
    (h1 : ¬ 140 < cost) (h2 : cost < 63) :
    claimPriceC2 cost pt fmt = pyRound2 (fl (cost + 20)) := by
  unfold claimPriceC2
  simp only [hd]
  rw [if_neg (by tauto), if_pos ⟨trivial, h2⟩]

theorem claimPrice_rotational {cost : ℚ} {pt fmt : String}
    (hd : draftTriggers.any (fun t => strIn t (pyLower fmt)) = true)
    (h1 : ¬ 140 < cost) (h2 : ¬ cost < 63) (h3 : pt ≠ "Core Product") :
    claimPriceC2 cost pt fmt = pyRound2 (fl (cost * fl (1285 / 1000))) := by
  unfold claimPriceC2
  simp only [hd]
  rw [if_neg (by tauto), if_neg (by tauto), if_neg h3]

theorem draft_keg : draftTriggers.any (fun t => strIn t (pyLower ("keg"))) = true := by
  decide

-- ## Claim C2 (pricing branches and boundaries)

/-- Claim C2: for every nonzero cost the price follows exactly the four
ordered branches the claim lists (draft-high, draft-low, core, rotational,
each rounded to 2 decimals), and the boundary examples evaluate, in the
binary64 arithmetic the program actually performs, to 179.90 at cost 140,
180.01 at the float value of 140.01, and 82.99 at the float value of
62.99 — but to 80.95 at cost 63, not the 80.96 the claim states: the
float product 63 × 1.285 is 80.95499999999999829…, just below the 80.955
midpoint the claim's decimal arithmetic assumes, so `round(·, 2)` rounds
down.  (Also amended from "for every cost": at cost = 0 the source
returns 0.00 before any branch is consulted, see the counterexample.) -/
theorem claim_C2 :
    (∀ (cost : ℚ) (pt fmt : String), cost ≠ 0 →
      calculate_sell_price cost pt fmt = claimPriceC2 cost pt fmt)
    ∧ calculate_sell_price 140 ("Rotational Product") ("keg") = 17990 / 100
    ∧ calculate_sell_price (fl (14001 / 100)) ("Rotational Product") ("keg")
        = 18001 / 100
    ∧ calculate_sell_price 63 ("Rotational Product") ("keg") = 8095 / 100
    ∧ calculate_sell_price (fl (6299 / 100)) ("Rotational Product") ("keg")
        = 8299 / 100 := by
  refine ⟨fun cost pt fmt h => sell_price_ne_zero pt fmt h, ?_, ?_, ?_, ?_⟩
  · rw [sell_price_ne_zero _ _ (by norm_num),
      claimPrice_rotational draft_keg (by norm_num) (by norm_num) (by decide),
      fl_c1285, fl_mul140,
      pyRound2_eval_up (1582417134695219 / 2 ^ 43) 17989
        (by norm_num) (by norm_num)]
    norm_num
  · rw [fl_14001,
      sell_price_ne_zero _ _ (by norm_num),
      claimPrice_high draft_keg (by norm_num),
      fl_sumA,
      pyRound2_eval_up (791692352463831 / 2 ^ 42) 18000
        (by norm_num) (by norm_num)]
    norm_num
  · rw [sell_price_ne_zero _ _ (by norm_num),
      claimPrice_rotational draft_keg (by norm_num) (by norm_num) (by decide),
      fl_c1285, fl_mul63,
      pyRound2_eval_down (5696701684902789 / 2 ^ 46) 8095
        (by norm_num) (by norm_num)]
    norm_num
  · rw [fl_6299,
      sell_price_ne_zero _ _ (by norm_num),
      claimPrice_low draft_keg (by norm_num) (by norm_num),
      fl_sumB,
      pyRound2_eval_down (364993879956521 / 2 ^ 42) 8299
        (by norm_num) (by norm_num)]
    norm_num

/-- Claim C2, witness: the theorem applied at cost 140. -/
theorem claim_C2_witness :
    (140 : ℚ) ≠ 0
    ∧ calculate_sell_price 140 ("Rotational Product") ("keg")
        = claimPriceC2 140 ("Rotational Product") ("keg") :=
  ⟨by norm_num, claim_C2.1 140 ("Rotational Product") ("keg") (by norm_num)⟩

/-- Claim C2, counterexample: the claim asserts
`sell_price(63, "Rotational Product", "keg") = 80.96`, but the code's
binary64 product 63 × 1.285 is 80.95499999999999829… and `round(·, 2)`
returns 80.95; and at cost 0 with a draft format the code returns 0.00
while the claim's branch order dictates 0 + 20 = 20. -/
theorem claim_C2_cx :
    calculate_sell_price 63 ("Rotational Product") ("keg") = 8095 / 100
    ∧ (8095 / 100 : ℚ) ≠ 8096 / 100
    ∧ calculate_sell_price 0 ("Rotational Product") ("keg") = 0
    ∧ claimPriceC2 0 ("Rotational Product") ("keg") = 20
    ∧ (0 : ℚ) ≠ 20 := by
  refine ⟨?_, by norm_num, ?_, ?_, by norm_num⟩
  · rw [sell_price_ne_zero _ _ (by norm_num),
      claimPrice_rotational draft_keg (by norm_num) (by norm_num) (by decide),
      fl_c1285, fl_mul63,
      pyRound2_eval_down (5696701684902789 / 2 ^ 46) 8095
        (by norm_num) (by norm_num)]
    norm_num
  · unfold calculate_sell_price
    rw [if_pos rfl]
  · rw [claimPrice_low draft_keg (by norm_num) (by norm_num),
      (by norm_num : (0 : ℚ) + 20 = 20), fl_twenty,
      pyRound2_eval_down 20 2000 (by norm_num) (by norm_num)]
    norm_num

-- ## Claim C5 (zero / non-positive cost)

/-- Claim C5 (amended): at cost exactly 0 the price is 0.00 regardless of
product type and format.  (The claim's "every cost less than or equal to
zero" fails on the code: negative costs fall through to the normal pricing
branches, see the counterexample.) -/
theorem claim_C5 : ∀ (pt fmt : String), calculate_sell_price 0 pt fmt = 0 := by
  intro pt fmt
  unfold calculate_sell_price
  rw [if_pos rfl]

/-- Claim C5, counterexample: a negative cost is not mapped to 0.00 —
`sell_price(-10, "Rotational Product", "keg")` is −10 + 20 = 10. -/
theorem claim_C5_cx :
    calculate_sell_price (-10) ("Rotational Product") ("keg") = 10
    ∧ (10 : ℚ) ≠ 0 := by
  refine ⟨?_, by norm_num⟩
  rw [sell_price_ne_zero _ _ (by norm_num),
    claimPrice_low draft_keg (by norm_num) (by norm_num),
    (by norm_num : (-10 : ℚ) + 20 = 10), fl_ten,
    pyRound2_eval_down 10 1000 (by norm_num) (by norm_num)]
  norm_num

-- ## Claim C10 (final PO lines)

/-- Claim C10: the prepared PO keeps exactly the Matched rows; a split row
gets quantity 2×q and unit cost p/2 with line total q×p preserved; a
non-split row passes through unchanged with total q×p. -/
theorem claim_C10 :
    (∀ rows : List LineRow,
      prepare_final_po_lines rows
        = (rows.filter (fun r => r.status == "✅ Match")).map poLineOf)
    ∧ (∀ r : LineRow, r.useSplit = true →
        (poLineOf r).poQty = 2 * r.qty ∧ (poLineOf r).poCost = r.price / 2
          ∧ (poLineOf r).total = r.qty * r.price)
    ∧ (∀ r : LineRow, r.useSplit = false →
        (poLineOf r).poQty = r.qty ∧ (poLineOf r).poCost = r.price
          ∧ (poLineOf r).total = r.qty * r.price) := by
  refine ⟨?_, ?_, ?_⟩
  · intro rows
    induction rows with
    | nil => rfl
    | cons r rs ih =>
      simp only [prepare_final_po_lines] at ih ⊢
      rw [List.filterMap_cons, List.filter_cons]
      by_cases h : r.status = "✅ Match"
      · simp [h, ih]
      · simp [h, ih]
  · intro r h
    refine ⟨?_, ?_, ?_⟩ <;> simp [poLineOf, h] <;> ring
  · intro r h
    refine ⟨?_, ?_, ?_⟩ <;> simp [poLineOf, h]

/-- Claim C10, witness: the split transform applied to a concrete matched
row with quantity 3 and price 10. -/
theorem claim_C10_witness :
    (poLineOf ⟨"✅ Match", "P", "V", 3, 10, true, "", ""⟩).poQty = 2 * 3
    ∧ (poLineOf ⟨"✅ Match", "P", "V", 3, 10, true, "", ""⟩).poCost = 10 / 2
    ∧ (poLineOf ⟨"✅ Match", "P", "V", 3, 10, true, "", ""⟩).total = 3 * 10 :=
  claim_C10.2.1 ⟨"✅ Match", "P", "V", 3, 10, true, "", ""⟩ rfl

-- ## Helper lemmas: decimal token shape

theorem decStrip_snd {m k : ℕ} (h : m % 10 ^ k ≠ 0) : (decStrip m k).2 ≠ 0 := by
  induction k generalizing m with
  | zero => simp [Nat.mod_one] at h
  | succ j ih =>
    unfold decStrip
    by_cases h10 : m % 10 = 0
    · rw [if_pos h10]
      apply ih
      obtain ⟨m1, rfl⟩ : ∃ m1, m = 10 * m1 := ⟨m / 10, by omega⟩
      rw [Nat.mul_div_cancel_left _ (by omega)]
      intro hc
      apply h
      rw [pow_succ']
      rw [Nat.mul_mod_mul_left]
      omega
    · rw [if_neg h10]
      simp

theorem decStr_dot {d : Dec} (h : decIsInt d = false) : '.' ∈ (decStr d).data := by
  have h2 : (decStrip d.1 d.2).2 ≠ 0 := by
    apply decStrip_snd
    simpa [decIsInt] using h
  unfold decStr
  simp only [h2, if_false]
  simp [data_app]

-- ## Claim C9 (volume normaliser)

/-- Claim C9: `normalize_vol_string` returns "0" on empty or tokenless
input; otherwise it prints the first numeric token, divided by ten exactly
when a millilitre marker is present, as an integer string when the value
is integral and as a decimal-point string otherwise ("330ml" → "33",
"50L" → "50"). -/
theorem claim_C9 :
    normalize_vol_string ("") = "0"
    ∧ (∀ v : String, findFirstNum (pyStrip (pyLower v)).data = none →
        normalize_vol_string v = "0")
    ∧ (∀ (v : String) (d : Dec), findFirstNum (pyStrip (pyLower v)).data = some d →
        normalize_vol_string v
          = decTokenStr (if strIn ("ml") (pyStrip (pyLower v)) = true then decDivTen d else d))
    ∧ (∀ d : Dec, decIsInt d = true → decTokenStr d = natToStr (decToNat d))
    ∧ (∀ d : Dec, decIsInt d = false → decTokenStr d = decStr d ∧ '.' ∈ (decStr d).data)
    ∧ normalize_vol_string ("330ml") = "33"
    ∧ normalize_vol_string ("50L") = "50" := by
  refine ⟨by decide, ?_, ?_, ?_, ?_, by decide, by decide⟩
  · intro v h
    by_cases hv : v.data.isEmpty
    · unfold normalize_vol_string
      rw [if_pos hv]
    · have hv2 : v.data.isEmpty = false := by simpa using hv
      simp only [normalize_vol_string, hv2, Bool.false_eq_true, if_false, h]
  · intro v d h
    by_cases hv : v.data.isEmpty
    · exfalso
      have hveq : v = "" := by
        cases v with
        | mk l =>
          cases l with
          | nil => rfl
          | cons c cs => simp [List.isEmpty] at hv
      subst hveq
      rw [show findFirstNum (pyStrip (pyLower (""))).data = none from rfl] at h
      cases h
    · have hv2 : v.data.isEmpty = false := by simpa using hv
      simp only [normalize_vol_string, hv2, Bool.false_eq_true, if_false, h]
  · intro d h
    unfold decTokenStr
    rw [if_pos h]
  · intro d h
    refine ⟨?_, decStr_dot h⟩
    unfold decTokenStr
    rw [if_neg (by simp [h])]

/-- Claim C9, witness: the main clause applied at "330ml" with its first
numeric token 330. -/
theorem claim_C9_witness :
    findFirstNum (pyStrip (pyLower ("330ml"))).data = some (330, 0)
    ∧ normalize_vol_string ("330ml")
        = decTokenStr
            (if strIn ("ml") (pyStrip (pyLower ("330ml"))) = true
              then decDivTen (330, 0) else (330, 0)) :=
  ⟨by decide, claim_C9.2.2.1 ("330ml") (330, 0) (by decide)⟩

-- ## Claim C8 (product code derivation)

theorem padTrunc4_len (l : List Char) : (padTrunc4 l).length = 4 := by
  simp only [padTrunc4, List.length_take, List.length_append, List.length_replicate]
  omega

/-- Claim C8: the product code is always a 4-character string; with ≥ 4
cleaned words it is the first letter of each of the first 4 words, with
2–3 words the first 2 letters of the first 2 words padded/truncated to 4
with "X", with 1 word its first 2 letters plus "XX" (padded to 4 with "X"
for a 1-letter word, matching the 4-character guarantee); and
"Hazy Pale Ale" → "HAPA", "IPA" → "IPXX", "Triple Hop Citra Pale" → "THCP". -/
theorem claim_C8 :
    (∀ name : String, (generate_sku_parts name).data.length = 4)
    ∧ (∀ name : String, 4 ≤ (skuWords name).length →
        generate_sku_parts name
          = String.mk (((skuWords name).take 4).map (fun w => w.headD '?')))
    ∧ (∀ (name : String) (w1 w2 : List Char) (rest : List (List Char)),
        skuWords name = w1 :: w2 :: rest → rest.length ≤ 1 →
        generate_sku_parts name = String.mk (padTrunc4 (w1.take 2 ++ w2.take 2)))
    ∧ (∀ (name : String) (w1 : List Char), skuWords name = [w1] →
        generate_sku_parts name = String.mk (padTrunc4 (w1.take 2 ++ ['X', 'X'])))
    ∧ generate_sku_parts ("Hazy Pale Ale") = "HAPA"
    ∧ generate_sku_parts ("IPA") = "IPXX"
    ∧ generate_sku_parts ("Triple Hop Citra Pale") = "THCP" := by
  refine ⟨?_, ?_, ?_, ?_, by decide, by decide, by decide⟩
  · intro name
    simp only [generate_sku_parts]
    split
    · decide
    · split
      · rename_i h4
        simp only [String.data]
        rw [List.length_map, List.length_take]
        omega
      · split
        · simp [padTrunc4_len]
        · simp [padTrunc4_len]
  · intro name h4
    simp only [generate_sku_parts]
    rw [if_neg (by omega), if_pos h4]
  · intro name w1 w2 rest heq hlen
    have hl : (skuWords name).length = rest.length + 2 := by rw [heq]; simp
    simp only [generate_sku_parts]
    rw [if_neg (by omega), if_neg (by omega), if_pos (by omega), heq]
    simp
  · intro name w1 heq
    have hl : (skuWords name).length = 1 := by rw [heq]; simp
    simp only [generate_sku_parts]
    rw [if_neg (by omega), if_neg (by omega), if_neg (by omega), heq]
    simp

/-- Claim C8, witness: the one-word clause applied at "IPA". -/
theorem claim_C8_witness :
    skuWords ("IPA") = [['I', 'P', 'A']]
    ∧ generate_sku_parts ("IPA")
        = String.mk (padTrunc4 (['I', 'P', 'A'].take 2 ++ ['X', 'X'])) :=
  ⟨by decide, claim_C8.2.2.2.1 ("IPA") ['I', 'P', 'A'] (by decide)⟩

-- ## Helper lemmas: walking the scored candidates

theorem walkList_filter (invFmt invPack invVol : String)
    (l : List (ℕ × Candidate × String)) :
    walkList invFmt invPack invVol l
      = walkList invFmt invPack invVol (l.filter (fun e => 75 ≤ e.1)) := by
  induction l with
  | nil => rfl
  | cons e rest ih =>
    by_cases h : 75 ≤ e.1
    · have h75 : ¬ (e.1 < 75) := by omega
      rw [List.filter_cons, if_pos (by simpa using h)]
      by_cases hc : formatCompatible invFmt e.2.1
      · cases hfv : findVariant invPack invVol e.2.1.variants with
        | some v => simp [walkList, h75, hc, hfv]
        | none => simp [walkList, h75, hc, hfv, ih]
      · simp [walkList, h75, hc, ih]
    · have h75 : e.1 < 75 := by omega
      rw [List.filter_cons, if_neg (by simpa using h)]
      simp [walkList, h75, ih]

theorem walkList_compat {invFmt invPack invVol : String}
    {l : List (ℕ × Candidate × String)} {c : Candidate} {v : Variant}
    (h : walkList invFmt invPack invVol l = some (c, v)) :
    formatCompatible invFmt c = true := by
  induction l with
  | nil => simp [walkList] at h
  | cons e rest ih =>
    simp only [walkList] at h
    by_cases h75 : e.1 < 75
    · rw [if_pos h75] at h
      exact ih h
    · rw [if_neg h75] at h
      by_cases hc : formatCompatible invFmt e.2.1
      · rw [if_pos hc] at h
        cases hfv : findVariant invPack invVol e.2.1.variants with
        | some v2 =>
          rw [hfv] at h
          simp only [Option.some.injEq, Prod.mk.injEq] at h
          obtain ⟨h1, h2⟩ := h
          rw [← h1]
          exact hc
        | none =>
          rw [hfv] at h
          exact ih h
      · rw [if_neg hc] at h
        exact ih h

-- ## Claim C3 (score floor and discard threshold)

/-- Claim C3: the matcher's result only depends on candidates whose
(bonus-adjusted) score is at least 75 — every entry below the floor is
skipped; every entry in the scored list has score above 40 (≤ 40 is
discarded); and concretely a candidate scoring exactly 74 yields no match
while the same candidate scoring exactly 75 yields one. -/
theorem claim_C3 :
    (∀ (sf : String → String → ℕ) (line : InvLine) (cands : List Candidate),
      matchCandidate sf line cands
        = walkList (pyLower line.format) (packTokenOf line)
            (normalize_vol_string line.volume)
            ((sortDesc (scoredList sf line.prodName cands)).filter (fun e => 75 ≤ e.1)))
    ∧ (∀ (sf : String → String → ℕ) (invName : String) (cands : List Candidate)
        (e : ℕ × Candidate × String), e ∈ scoredList sf invName cands → 40 < e.1)
    ∧ matchCandidate (sfConst 74) lineC3 [candC3] = none
    ∧ matchCandidate (sfConst 75) lineC3 [candC3] = some (candC3, varC3) := by
  refine ⟨?_, ?_, by decide, by decide⟩
  · intro sf line cands
    exact walkList_filter _ _ _ _
  · intro sf invName cands e he
    have := List.of_mem_filter he
    simpa using this

/-- Claim C3, witness: the scored-list threshold applied to a concrete
entry of score 90 (80 from the oracle plus the +10 substring bonus). -/
theorem claim_C3_witness :
    (90, candC4, cleanTitle candC4.title) ∈ scoredList (sfConst 80) ("Pale") [candC4]
    ∧ 40 < 90 :=
  ⟨by decide,
    claim_C3.2.1 (sfConst 80) ("Pale") [candC4] (90, candC4, cleanTitle candC4.title)
      (by decide)⟩

-- ## Claim C1 (keg family compatibility)

/-- Claim C1 (amended): whenever the matcher returns a candidate for an
invoice whose lowered format text contains "keg", that candidate passes
the keg cross-family disqualifier — poly/dolium/pet vs keykeg vs
steel/stainless on the invoice side and poly/dolium vs keykeg vs
steel/stainless on the candidate keg-metadata side ("pet" is recognised
only on the invoice side, which is the amendment forced by the
counterexample). -/
theorem claim_C1 (sf : String → String → ℕ) (line : InvLine)
    (cands : List Candidate) (c : Candidate) (v : Variant)
    (hm : matchCandidate sf line cands = some (c, v))
    (hk : strIn ("keg") (pyLower line.format) = true) :
    kegCross (pyLower line.format) c = false := by
  have hm2 : walkList (pyLower line.format) (packTokenOf line)
      (normalize_vol_string line.volume)
      (sortDesc (scoredList sf line.prodName cands)) = some (c, v) := hm
  have hc : formatCompatible (pyLower line.format) c = true := walkList_compat hm2
  unfold formatCompatible at hc
  rw [if_pos hk] at hc
  simpa using hc

/-- Claim C1, witness: a compatible KeyKeg-to-KeyKeg match, for which the
theorem yields that the cross-family disqualifier is off. -/
theorem claim_C1_witness :
    matchCandidate (sfConst 80) lineC1w [candC1w] = some (candC1w, varC1w)
    ∧ kegCross (pyLower lineC1w.format) candC1w = false :=
  ⟨by decide,
    claim_C1 (sfConst 80) lineC1w [candC1w] candC1w varC1w (by decide) (by decide)⟩

/-- Claim C1, counterexample: an invoice formatted "Steel Keg" (spec
family: steel) is matched to a candidate whose keg metadata says "pet"
(spec family: poly/dolium/PET) — the candidate-side family test of the
source never looks for "pet", so this cross-family pair does match,
contradicting the claim as stated. -/
theorem claim_C1_cx :
    strIn ("keg") (pyLower lineC1.format) = true
    ∧ matchCandidate (sfConst 80) lineC1 [candC1] = some (candC1, varC1)
    ∧ specKegFamily (pyLower lineC1.format) = some KegFam.steel
    ∧ specKegFamily (pyLower candC1.kegMeta) = some KegFam.poly
    ∧ specKegFamily (pyLower lineC1.format) ≠ specKegFamily (pyLower candC1.kegMeta) := by
  refine ⟨by decide, by decide, by decide, by decide, by decide⟩

-- ## Claim C4 (MatchRow invariant)

/-- Claim C4 (amended): every MatchRow is either not-Matched with all SKU
and catalog-id fields empty, or Matched via some matched (candidate,
variant) pair with the two location SKUs built from the variant SKU when
that SKU (trimmed) is longer than 2 characters — and left empty (together
with the catalog ids) when it is not, which is the amendment forced by
the counterexample. -/
theorem claim_C4 (sf : String → String → ℕ) (cin7 : String → String)
    (line : InvLine) (cands : List Candidate) :
    ((buildResult sf cin7 line cands).status ≠ "✅ Match" →
      (buildResult sf cin7 line cands).londonSku = ""
        ∧ (buildResult sf cin7 line cands).cin7LondonId = ""
        ∧ (buildResult sf cin7 line cands).gloucesterSku = ""
        ∧ (buildResult sf cin7 line cands).cin7GlouId = "")
    ∧ ((buildResult sf cin7 line cands).status = "✅ Match" →
        ∃ (c : Candidate) (v : Variant),
          matchCandidate sf line cands = some (c, v)
          ∧ ((2 < (pyStrip v.sku).data.length
              ∧ (buildResult sf cin7 line cands).londonSku
                  = "L-" ++ String.mk ((pyStrip v.sku).data.drop 2)
              ∧ (buildResult sf cin7 line cands).gloucesterSku
                  = "G-" ++ String.mk ((pyStrip v.sku).data.drop 2))
            ∨ ((pyStrip v.sku).data.length ≤ 2
              ∧ (buildResult sf cin7 line cands).londonSku = ""
              ∧ (buildResult sf cin7 line cands).cin7LondonId = ""
              ∧ (buildResult sf cin7 line cands).gloucesterSku = ""
              ∧ (buildResult sf cin7 line cands).cin7GlouId = ""))) := by
  unfold buildResult
  split
  · constructor
    · intro _
      exact ⟨rfl, rfl, rfl, rfl⟩
    · intro h
      exact absurd h (by decide)
  · split
    · constructor
      · intro _
        exact ⟨rfl, rfl, rfl, rfl⟩
      · intro h
        exact absurd h (by decide)
    · rename_i c v heq
      constructor
      · intro hst
        exact absurd rfl hst
      · intro _
        refine ⟨c, v, heq, ?_⟩
        by_cases hl : 2 < (pyStrip v.sku).data.length
        · left
          refine ⟨hl, ?_, ?_⟩ <;>
            (dsimp only; rw [if_pos hl])
        · right
          refine ⟨by omega, ?_, ?_, ?_, ?_⟩ <;>
            (dsimp only; rw [if_neg hl]; try simp)

/-- Claim C4, witness: an unmatched line (no candidates at all) has every
SKU and catalog-id field empty. -/
theorem claim_C4_witness :
    (buildResult (sfConst 80) cinBlank lineC4 []).status ≠ "✅ Match"
    ∧ ((buildResult (sfConst 80) cinBlank lineC4 []).londonSku = ""
        ∧ (buildResult (sfConst 80) cinBlank lineC4 []).cin7LondonId = ""
        ∧ (buildResult (sfConst 80) cinBlank lineC4 []).gloucesterSku = ""
        ∧ (buildResult (sfConst 80) cinBlank lineC4 []).cin7GlouId = "") :=
  ⟨by decide, (claim_C4 (sfConst 80) cinBlank lineC4 []).1 (by decide)⟩

/-- Claim C4, counterexample: a matched variant whose SKU is the single
character "X" yields a row with status Matched but empty location SKUs —
neither of the claim's two permitted states holds. -/
theorem claim_C4_cx :
    (buildResult (sfConst 80) cinBlank lineC4 [candC4]).status = "✅ Match"
    ∧ (buildResult (sfConst 80) cinBlank lineC4 [candC4]).londonSku = ""
    ∧ (buildResult (sfConst 80) cinBlank lineC4 [candC4]).gloucesterSku = ""
    ∧ ¬ c4ClaimProp (buildResult (sfConst 80) cinBlank lineC4 [candC4]) := by
  refine ⟨by decide, by decide, by decide, by decide⟩

-- ## Helper lemmas: the C6 split-case example

theorem origPackOf_rowC6 : origPackOf rowC6 = 24 := by
  unfold origPackOf
  rw [if_neg (by decide)]
  rw [show parseDec rowC6.packSize = some (24, 0) from by decide]
  simp [decVal]

theorem origPriceOf_rowC6 : origPriceOf rowC6 = 48 := by
  unfold origPriceOf
  rw [show parseDec rowC6.itemPrice = some (48, 0) from by decide]
  simp [decVal]

theorem synthConfigs_rowC6 : synthConfigs rowC6 = [(24, 48), (12, 24)] := by
  unfold synthConfigs
  rw [origPackOf_rowC6, origPriceOf_rowC6]
  dsimp only
  rw [if_pos ⟨rfl, by norm_num⟩]
  norm_num

theorem synthesize_rowC6 :
    synthesize mapNone mapNone mapNoneW mapNone2 mapNone ("11102025") 0 rowC6
      = [synthA, synthB] := by
  unfold synthesize
  rw [synthConfigs_rowC6]
  rfl

theorem mem_synthesize_family
    {suppMap fmtMap : String → Option String}
    {weightMap : String → String → Option ℚ}
    {sizeMap : String → String → Option String}
    {kegMap : String → Option String} {dateStr : String} {idx : ℕ}
    {row : StagedRow} {r : SynthRow}
    (h : r ∈ synthesize suppMap fmtMap weightMap sizeMap kegMap dateStr idx row) :
    r.familySku = familySkuOf suppMap fmtMap dateStr idx row
    ∧ r.familyName = familyNameOf row := by
  unfold synthesize at h
  simp only [List.mem_flatMap, List.mem_map] at h
  obtain ⟨pc, hpc, conn, hconn, rfl⟩ := h
  exact ⟨rfl, rfl⟩

-- ## Claim C6 (split-case expansion and family identity)

/-- Claim C6: the staged row with pack 24, cost 48 and split flag set
(format "Can", volume "33cl") synthesizes exactly 2 rows — pack 24 / cost
48 and pack 12 / cost 24 — sharing the same family SKU; and in general
every pair of rows synthesized from one staged row (same date, index and
lookup tables) carries the identical family SKU and family name. -/
theorem claim_C6 :
    ((synthesize mapNone mapNone mapNoneW mapNone2 mapNone ("11102025") 0 rowC6).length = 2
      ∧ (synthesize mapNone mapNone mapNoneW mapNone2 mapNone ("11102025") 0 rowC6).map
          (fun r => (r.packSize, r.itemPrice)) = [((24 : ℚ), (48 : ℚ)), (12, 24)]
      ∧ (synthesize mapNone mapNone mapNoneW mapNone2 mapNone ("11102025") 0 rowC6).map
          (fun r => r.familySku)
          = ["XXXXTEPA-11102025-0-UN", "XXXXTEPA-11102025-0-UN"])
    ∧ (∀ (suppMap fmtMap : String → Option String)
        (weightMap : String → String → Option ℚ)
        (sizeMap : String → String → Option String)
        (kegMap : String → Option String) (dateStr : String) (idx : ℕ)
        (row : StagedRow) (r1 r2 : SynthRow),
        r1 ∈ synthesize suppMap fmtMap weightMap sizeMap kegMap dateStr idx row →
        r2 ∈ synthesize suppMap fmtMap weightMap sizeMap kegMap dateStr idx row →
        r1.familySku = r2.familySku ∧ r1.familyName = r2.familyName) := by
  refine ⟨⟨?_, ?_, ?_⟩, ?_⟩
  · rw [synthesize_rowC6]; rfl
  · rw [synthesize_rowC6]; rfl
  · rw [synthesize_rowC6]; rfl
  · intro suppMap fmtMap weightMap sizeMap kegMap dateStr idx row r1 r2 h1 h2
    have g1 := mem_synthesize_family h1
    have g2 := mem_synthesize_family h2
    exact ⟨g1.1.trans g2.1.symm, g1.2.trans g2.2.symm⟩

/-- Claim C6, witness: the family-identity clause applied to the two rows
of the concrete split-case example. -/
theorem claim_C6_witness :
    synthA ∈ synthesize mapNone mapNone mapNoneW mapNone2 mapNone ("11102025") 0 rowC6
    ∧ synthB ∈ synthesize mapNone mapNone mapNoneW mapNone2 mapNone ("11102025") 0 rowC6
    ∧ (synthA.familySku = synthB.familySku
        ∧ synthA.familyName = synthB.familyName) :=
  ⟨by rw [synthesize_rowC6]; exact List.mem_cons_self _ _,
   by rw [synthesize_rowC6]; exact List.mem_cons_of_mem _ (List.mem_cons_self _ _),
   claim_C6.2 mapNone mapNone mapNoneW mapNone2 mapNone ("11102025") 0 rowC6 synthA synthB
     (by rw [synthesize_rowC6]; exact List.mem_cons_self _ _)
     (by rw [synthesize_rowC6]; exact List.mem_cons_of_mem _ (List.mem_cons_self _ _))⟩

-- ## Helper lemmas: variant titles and the pack separator

theorem pyLower_app (a b : String) : pyLower (a ++ b) = pyLower a ++ pyLower b := by
  show String.mk ((a.data ++ b.data).map Char.toLower)
      = String.mk (a.data.map Char.toLower ++ b.data.map Char.toLower)
  rw [List.map_append]

theorem strAppend_assoc (a b c : String) : (a ++ b) ++ c = a ++ (b ++ c) := by
  show String.mk ((a.data ++ b.data) ++ c.data) = String.mk (a.data ++ (b.data ++ c.data))
  rw [List.append_assoc]

theorem strIn_app_of_left {n a : String} (b : String) (h : strIn n a = true) :
    strIn n (a ++ b) = true := by
  unfold strIn at h ⊢
  rw [data_app]
  exact isSub_app_right h b.data

theorem strIn_app_of_right {n b : String} (a : String) (h : strIn n b = true) :
    strIn n (a ++ b) = true := by
  unfold strIn at h ⊢
  rw [data_app]
  exact isSub_app_left a.data h

theorem volOk_of_first {invVol t : String} (h : strIn invVol t = true) :
    volOk invVol t = true := by
  unfold volOk
  rw [h]
  rfl

theorem variantNameRule_eq (p : ℚ) (vol conn : String) :
    variantNameRule p vol conn
      = (if 1 < p then pyStrInt (pyTrunc p) ++ " x " ++ vol else vol) ++ connSuffix conn := by
  unfold variantNameRule connSuffix
  by_cases h : conn = ""
  · simp [h]
  · simp [h, strAppend_assoc]

theorem no_sep_span {a b : List Char}
    (hA : isSub [' ', 'x', ' '] (a ++ [' ']) = false)
    (hB1 : isSub [' ', 'x', ' '] b = false)
    (hB2 : List.isPrefixOf ['x', ' '] b = false) :
    isSub [' ', 'x', ' '] (a ++ b) = false := by
  cases hcase : isSub [' ', 'x', ' '] (a ++ b) with
  | false => rfl
  | true =>
    exfalso
    rcases isSub_app_split hcase with hb | ⟨s, t, hst, ht, hp⟩
    · simp [hB1] at hb
    · cases t with
      | nil => exact ht rfl
      | cons c t2 =>
        rw [List.cons_append] at hp
        simp only [List.isPrefixOf, Bool.and_eq_true, beq_iff_eq] at hp
        obtain ⟨hc1, hp2⟩ := hp
        cases t2 with
        | nil =>
          simp only [List.nil_append] at hp2
          simp [hB2] at hp2
        | cons d t3 =>
          rw [List.cons_append] at hp2
          simp only [List.isPrefixOf, Bool.and_eq_true, beq_iff_eq] at hp2
          obtain ⟨hd, hp3⟩ := hp2
          cases t3 with
          | nil =>
            have hsub : isSub [' ', 'x', ' '] (a ++ [' ']) = true := by
              rw [hst, ← hc1, ← hd, List.append_assoc]
              simpa using isSub_mid s [' ', 'x', ' '] []
            simp [hA] at hsub
          | cons e t4 =>
            rw [List.cons_append] at hp3
            simp only [List.isPrefixOf, Bool.and_eq_true, beq_iff_eq] at hp3
            obtain ⟨he, _⟩ := hp3
            have hsub0 : isSub [' ', 'x', ' '] a = true := by
              rw [hst, ← hc1, ← hd, ← he]
              simpa using isSub_mid s [' ', 'x', ' '] t4
            have hsub : isSub [' ', 'x', ' '] (a ++ [' ']) = true :=
              isSub_app_right hsub0 [' ']
            simp [hA] at hsub

theorem packOk_one_case {V conn : String}
    (hx1 : strIn (" x ") (pyLower V ++ " ") = false)
    (hB1 : isSub [' ', 'x', ' '] (pyLower (connSuffix conn)).data = false)
    (hB2 : List.isPrefixOf ['x', ' '] (pyLower (connSuffix conn)).data = false) :
    packOk ("1") (pyLower (V ++ connSuffix conn)) = true := by
  unfold packOk
  rw [if_pos rfl]
  have hA : isSub [' ', 'x', ' '] ((pyLower V).data ++ [' ']) = false := hx1
  have hmain := no_sep_span hA hB1 hB2
  have hd : (pyLower (V ++ connSuffix conn)).data
      = (pyLower V).data ++ (pyLower (connSuffix conn)).data := by
    rw [pyLower_app, data_app]
  show (!(isSub [' ', 'x', ' '] (pyLower (V ++ connSuffix conn)).data)) = true
  rw [hd, hmain]
  rfl

-- ## Claim C7 (pack/volume round-trip)

/-- Claim C7 (amended): for an integer pack count P ≥ 1, a connector drawn
from the synthesizer's connector set, and a volume text V whose normalised
volume token occurs literally in the lowered volume text (and, when P = 1,
whose lowered text extended by one space does not contain the pack
separator " x "), the variant title built by the synthesizer's own
variant-name rule passes the matcher's pack check and volume check for the
matcher's own tokens of P and V.  (The literal-occurrence hypothesis is
the amendment forced by the counterexample: millilitre volumes whose
token gains a decimal point, e.g. "355ml" → "35.5", fail the matcher's
volume check against the synthesizer's title.) -/
theorem claim_C7 (P : ℕ) (V conn : String)
    (hP : 1 ≤ P)
    (hconn : conn ∈ [("" : String), "US Sankey D-Type Coupler", "Sankey Coupler",
      "KeyKeg Coupler"])
    (hx : P = 1 → strIn (" x ") (pyLower V ++ " ") = false)
    (hvol : strIn (normalize_vol_string V) (pyLower V) = true) :
    packTokenOf ⟨"", "", "", natToStr P, V, false⟩ = natToStr P
    ∧ packOk (natToStr P) (pyLower (variantNameRule ((P : ℕ) : ℚ) V conn)) = true
    ∧ volOk (normalize_vol_string V) (pyLower (variantNameRule ((P : ℕ) : ℚ) V conn))
        = true := by
  refine ⟨packTokenOf_nat P _ _ _ _, ?_⟩
  by_cases hP1 : P = 1
  · subst hP1
    have hlt : ¬ ((1 : ℚ) < ((1 : ℕ) : ℚ)) := by norm_num
    have hrule : variantNameRule ((1 : ℕ) : ℚ) V conn = V ++ connSuffix conn := by
      rw [variantNameRule_eq, if_neg hlt]
    rw [hrule]
    constructor
    · rw [show natToStr 1 = "1" from by decide]
      have hx1 := hx rfl
      simp only [List.mem_cons, List.mem_singleton, List.not_mem_nil, or_false] at hconn
      rcases hconn with rfl | rfl | rfl | rfl <;>
        exact packOk_one_case hx1 (by decide) (by decide)
    · apply volOk_of_first
      rw [pyLower_app]
      exact strIn_app_of_left _ hvol
  · have hP2 : 2 ≤ P := by omega
    have hlt : (1 : ℚ) < ((P : ℕ) : ℚ) := by exact_mod_cast (by omega : 1 < P)
    have hrule : variantNameRule ((P : ℕ) : ℚ) V conn
        = (natToStr P ++ " x " ++ V) ++ connSuffix conn := by
      rw [variantNameRule_eq, if_pos hlt, pyTrunc_natCast, pyStrInt_natCast]
    rw [hrule]
    have hne1 : natToStr P ≠ "1" := natToStr_ne_one hP2
    constructor
    · unfold packOk
      rw [if_neg hne1]
      have hdata : (pyLower ((natToStr P ++ " x " ++ V) ++ connSuffix conn)).data
          = ((natToStr P).data ++ [' ', 'x'])
            ++ (' ' :: ((pyLower V).data ++ (pyLower (connSuffix conn)).data)) := by
        rw [pyLower_app, pyLower_app, pyLower_app, pyLower_natToStr,
          show pyLower (" x ") = (" x ") from by decide]
        simp [data_app, List.append_assoc]
      have h1 : strIn (natToStr P ++ (" x"))
          (pyLower ((natToStr P ++ " x " ++ V) ++ connSuffix conn)) = true := by
        unfold strIn
        rw [hdata, data_app]
        exact isSub_self_app _ _
      rw [h1]
      rfl
    · apply volOk_of_first
      rw [pyLower_app, pyLower_app]
      exact strIn_app_of_left _ (strIn_app_of_right _ hvol)

/-- Claim C7, witness: pack 6, volume "33cl", connector "Sankey Coupler". -/
theorem claim_C7_witness :
    (1 ≤ 6 ∧ strIn (normalize_vol_string ("33cl")) (pyLower ("33cl")) = true)
    ∧ (packTokenOf ⟨"", "", "", natToStr 6, "33cl", false⟩ = natToStr 6
      ∧ packOk (natToStr 6)
          (pyLower (variantNameRule ((6 : ℕ) : ℚ) ("33cl") ("Sankey Coupler"))) = true
      ∧ volOk (normalize_vol_string ("33cl"))
          (pyLower (variantNameRule ((6 : ℕ) : ℚ) ("33cl") ("Sankey Coupler"))) = true) :=
  ⟨⟨by norm_num, by decide⟩,
    claim_C7 6 ("33cl") ("Sankey Coupler") (by norm_num) (by decide)
      (fun h => absurd h (by norm_num)) (by decide)⟩

/-- Claim C7, counterexample: volume "355ml" normalises to token "35.5",
which does not occur in the synthesizer's title "24 x 355ml", so the
volume check fails even though the pack check passes — the round-trip as
universally claimed is false. -/
theorem claim_C7_cx :
    normalize_vol_string ("355ml") = "35.5"
    ∧ packOk (natToStr 24)
        (pyLower (variantNameRule ((24 : ℕ) : ℚ) ("355ml") (""))) = true
    ∧ volOk (normalize_vol_string ("355ml"))
        (pyLower (variantNameRule ((24 : ℕ) : ℚ) ("355ml") (""))) = false := by
  have htitle : variantNameRule ((24 : ℕ) : ℚ) ("355ml") ("") = "24 x 355ml" := by
    rw [variantNameRule_eq, if_pos (by exact_mod_cast (by norm_num : (1 : ℕ) < 24)),
      pyTrunc_natCast, pyStrInt_natCast]
    decide
  refine ⟨by decide, ?_, ?_⟩ <;> rw [htitle] <;> decide
